import Mathlib

/-!
Verification of the confgo configuration manager (Go).

The development shallowly embeds the manager core (`ConfigManager` in the
repository: reload, merge, validate, Start, Stop, AddLoader) as pure Lean
functions over an explicit value universe.  Go errors are modelled by the
inductive `Err`, Go configuration values by `Value`, and each stateful
operation returns both its result and the trace of externally visible
calls it performed (source reads, formatter calls, merges, validator
invocations, watcher stops), so that ordering and "never calls X" claims
can be stated and proved.
-/

namespace Confgo

/-- Errors.  Sentinel errors mirror the repository's `errors.go`; `wrap m e`
models `fmt.Errorf("m: %w", e)`; `joined` models `errors.Join`; `userErr`
stands for an arbitrary error produced by user-supplied code (sources,
formatters, validators, custom mergers); `goPanic` marks places where the
Go code would panic (calling a nil function) rather than return an error. -/
inductive Err : Type where
  | sourceIsNil : Err
  | formatterIsNil : Err
  | constructorIsNil : Err
  | validatorIsNil : Err
  | constructorMustBePointer : Err
  | constructorMustReturnZeroStruct : Err
  | noLoadersDefined : Err
  | mergoNonPointer : Err
  | mergoNotSupported : Err
  | mergoDiffTypes : Err
  | userErr : String → Err
  | wrap : String → Err → Err
  | joined : List Err → Err
  | goPanic : String → Err

mutual

/-- Go types of configuration values, as far as the generic merge engine
inspects them: ints, strings, pointers, structs (ordered field list),
string-keyed maps, and slices. -/
inductive Ty : Type where
  | tInt : Ty
  | tStr : Ty
  | tPtr : Ty → Ty
  | tStruct : TyList → Ty
  | tMap : Ty → Ty
  | tSlice : Ty → Ty

/-- Ordered list of struct field types. -/
inductive TyList : Type where
  | nil : TyList
  | cons : Ty → TyList → TyList

end

mutual

/-- Go runtime values of the shapes the merge engine traverses.  Nil
pointers, nil maps and nil slices are distinguished from their non-nil
(possibly empty) counterparts, as in Go; the nil constructors carry the
static element type so that every value has a Go type. -/
inductive Value : Type where
  | vInt : Int → Value
  | vStr : String → Value
  | vPtrNil : Ty → Value
  | vPtrSome : Value → Value
  | vStruct : ValueList → Value
  | vMapNil : Ty → Value
  | vMap : Ty → EntryList → Value
  | vSliceNil : Ty → Value
  | vSlice : Ty → ValueList → Value

/-- Ordered list of struct field values (also used for slice elements). -/
inductive ValueList : Type where
  | nil : ValueList
  | cons : Value → ValueList → ValueList

/-- Entries of a string-keyed map. -/
inductive EntryList : Type where
  | nil : EntryList
  | cons : String → Value → EntryList → EntryList

end

mutual

/-- Boolean equality on `Ty`. -/
def tyBeq : Ty → Ty → Bool
  | .tInt, .tInt => true
  | .tStr, .tStr => true
  | .tPtr a, .tPtr b => tyBeq a b
  | .tStruct a, .tStruct b => tyListBeq a b
  | .tMap a, .tMap b => tyBeq a b
  | .tSlice a, .tSlice b => tyBeq a b
  | _, _ => false

/-- Boolean equality on `TyList`. -/
def tyListBeq : TyList → TyList → Bool
  | .nil, .nil => true
  | .cons a as, .cons b bs => tyBeq a b && tyListBeq as bs
  | _, _ => false

end

mutual

/-- Go type of a value (`reflect.TypeOf`); `none` for value shapes that no
well-typed Go value has (heterogeneous collections). -/
def typeOf : Value → Option Ty
  | .vInt _ => some .tInt
  | .vStr _ => some .tStr
  | .vPtrNil t => some (.tPtr t)
  | .vPtrSome v => (typeOf v).map .tPtr
  | .vStruct fs => (typeOfFields fs).map .tStruct
  | .vMapNil t => some (.tMap t)
  | .vMap t es => if entriesHaveTy es t then some (.tMap t) else none
  | .vSliceNil t => some (.tSlice t)
  | .vSlice t l => if elemsHaveTy l t then some (.tSlice t) else none

/-- Types of a field list, when every field is well typed. -/
def typeOfFields : ValueList → Option TyList
  | .nil => some .nil
  | .cons v vs =>
    match typeOf v, typeOfFields vs with
    | some t, some ts => some (.cons t ts)
    | _, _ => none

/-- Every map entry value has type `t`. -/
def entriesHaveTy : EntryList → Ty → Bool
  | .nil, _ => true
  | .cons _ v es, t =>
    (match typeOf v with
     | some t2 => tyBeq t2 t
     | none => false) && entriesHaveTy es t

/-- Every slice element has type `t`. -/
def elemsHaveTy : ValueList → Ty → Bool
  | .nil, _ => true
  | .cons v vs, t =>
    (match typeOf v with
     | some t2 => tyBeq t2 t
     | none => false) && elemsHaveTy vs t

end

mutual

/-- Go `reflect.Value.IsZero`: nil pointers, nil maps, nil slices, zero
ints, empty strings, and structs all of whose fields are zero. A non-nil
empty map or slice is not zero. -/
def isZeroValue : Value → Bool
  | .vInt n => n == 0
  | .vStr s => s == ""
  | .vPtrNil _ => true
  | .vPtrSome _ => false
  | .vStruct fs => fieldsZero fs
  | .vMapNil _ => true
  | .vMap _ _ => false
  | .vSliceNil _ => true
  | .vSlice _ _ => false

/-- All fields in the list are zero. -/
def fieldsZero : ValueList → Bool
  | .nil => true
  | .cons v vs => isZeroValue v && fieldsZero vs

end

mutual

/-- Zero value of a Go type: 0, "", nil pointer, struct of zero fields,
nil map, nil slice. -/
def zeroOfTy : Ty → Value
  | .tInt => .vInt 0
  | .tStr => .vStr ""
  | .tPtr t => .vPtrNil t
  | .tStruct fs => .vStruct (zeroOfFields fs)
  | .tMap t => .vMapNil t
  | .tSlice t => .vSliceNil t

/-- Zero values of a field type list. -/
def zeroOfFields : TyList → ValueList
  | .nil => .nil
  | .cons t ts => .cons (zeroOfTy t) (zeroOfFields ts)

end

/-- Length of a `ValueList`. -/
def vlen : ValueList → Nat
  | .nil => 0
  | .cons _ vs => vlen vs + 1

/-- Look up a key in a map entry list. -/
def lookupEntry : EntryList → String → Option Value
  | .nil, _ => none
  | .cons k v es, key => if k == key then some v else lookupEntry es key

/-- Set a key in a map entry list: overwrite in place if present, append
otherwise. -/
def setEntry : EntryList → String → Value → EntryList
  | .nil, k, v => .cons k v .nil
  | .cons k0 v0 es, k, v =>
    if k0 == k then .cons k0 v es else .cons k0 v0 (setEntry es k v)

mutual

/-- Modelled from the spec: the generic structural (deep) merge that the
repository delegates to the external mergo library
(`mergo.Merge(dst, src, mergo.WithOverride)` — the library's code is not
part of this repository's sources).  Per §4.2 of the spec: for every
field a non-zero incoming value overwrites the accumulator's field and a
zero incoming value never does; non-empty incoming slices replace the
accumulator's slice wholesale while empty ones never erase; incoming
maps overlay key-wise (new keys added, existing overwritten, untouched
preserved) and a nil incoming map never erases; a non-nil incoming
pointer overrides a nil accumulator pointer and two non-nil pointers
recurse into the pointees; nested structs recurse field-wise.  Called
only on two values of the same Go type; on mismatched shapes it returns
the accumulator unchanged. -/
def deepMerge : Value → Value → Value
  | .vInt d, .vInt s => if s == 0 then .vInt d else .vInt s
  | .vStr d, .vStr s => if s == "" then .vStr d else .vStr s
  | .vPtrNil t, .vPtrNil _ => .vPtrNil t
  | .vPtrNil _, .vPtrSome s => .vPtrSome s
  | .vPtrSome d, .vPtrNil _ => .vPtrSome d
  | .vPtrSome d, .vPtrSome s => .vPtrSome (deepMerge d s)
  | .vStruct ds, .vStruct ss => .vStruct (mergeFields ds ss)
  | .vMapNil t, .vMapNil _ => .vMapNil t
  | .vMapNil _, .vMap t es => .vMap t es
  | .vMap t es, .vMapNil _ => .vMap t es
  | .vMap t ds, .vMap _ ss => .vMap t (mergeEntries ds ss)
  | .vSliceNil t, .vSliceNil _ => .vSliceNil t
  | .vSliceNil t, .vSlice t2 l => if vlen l == 0 then .vSliceNil t else .vSlice t2 l
  | .vSlice t l, .vSliceNil _ => .vSlice t l
  | .vSlice t d, .vSlice t2 s => if vlen s == 0 then .vSlice t d else .vSlice t2 s
  | d, _ => d

/-- Field-wise merge of two struct field lists of equal length. -/
def mergeFields : ValueList → ValueList → ValueList
  | .cons d ds, .cons s ss => .cons (deepMerge d s) (mergeFields ds ss)
  | ds, _ => ds

/-- Key-wise overlay of the incoming entries onto the accumulator's. -/
def mergeEntries : EntryList → EntryList → EntryList
  | ds, .nil => ds
  | ds, .cons k v ss => mergeEntries (setEntry ds k v) ss

end

/-- Dereference the source argument when it is a non-nil pointer, as the
modelled mergo `Merge` does before comparing types. -/
def derefSrc : Value → Value
  | .vPtrSome s => s
  | s => s

/-- Modelled from the spec: the top level of the external mergo library's
`Merge` (not part of this repository's sources), with the argument
checking pinned down by the repository's own `TestConfigManager_merge`
table: the destination must be a non-nil pointer to a struct; the source
is dereferenced if it is a pointer and must then be a struct of the
destination's pointee type; otherwise the respective sentinel error is
returned (no panic). -/
def mergoMerge (dst src : Value) : Except Err Value :=
  match dst with
  | .vPtrSome dv =>
    match dv with
    | .vStruct _ =>
      match typeOf dv, typeOf (derefSrc src) with
      | some td, some ts =>
        if tyBeq td ts then .ok (.vPtrSome (deepMerge dv (derefSrc src)))
        else .error .mergoDiffTypes
      | _, _ => .error .mergoDiffTypes
    | _ => .error .mergoNotSupported
  | .vPtrNil _ => .error .mergoNotSupported
  | _ => .error .mergoNonPointer

/-- Model of `ConfigManager.merge` from the repository: if the destination's
dynamic type implements the `Merger` interface (modelled by passing that
type's `Merge` method as `dstMerger`), delegate entirely to it; otherwise
run the generic structural merge.  The second component records whether
the generic merge path was invoked. -/
def mergeStep (dstMerger : Option (Value → Value → Except Err Value))
    (dst src : Value) : Except Err Value × Bool :=
  match dstMerger with
  | some m => (m dst src, false)
  | none => (mergoMerge dst src, true)

/-- Events emitted while a reload processes the loader list: the read of
loader `i`'s source, the formatter call for loader `i`, and the merge of
loader `i`'s decoded scratch value into the accumulator. -/
inductive LEvent : Type where
  | readEv : Nat → LEvent
  | unmarshalEv : Nat → LEvent
  | mergeEv : Nat → LEvent
deriving DecidableEq

/-- Events emitted by the validation step: the configuration type's own
`Validate` method, a named validator (by name), a positional validator
(by index). -/
inductive VEvent : Type where
  | typeValidateEv : VEvent
  | namedEv : String → VEvent
  | posEv : Nat → VEvent
deriving DecidableEq

/-- Events emitted by `Stop`: the `Stop` call on loader `i`'s watcher, and
the clearing of the running flag. -/
inductive SEvent : Type where
  | watcherStopEv : Nat → SEvent
  | clearRunningEv : SEvent
deriving DecidableEq

/-- Model of a `Watcher`: only its `Stop` result is relevant to the claims
(`none` = `Stop` returns nil).  The asynchronous `Watch` callback
delivery is outside this embedding. -/
structure Watcher where
  stopRes : Option Err

/-- Model of a `Loader`.  A `Source` is modelled by the result its `Read`
returns; a `Formatter` by the function its `Unmarshal` applies to the raw
data and the fresh scratch value; `none` throughout models a nil Go
interface value. -/
structure Loader where
  source : Option (Except Err String)
  formatter : Option (String → Value → Except Err Value)
  watcher : Option Watcher
  onUpdateSuccess : Option Unit
  onUpdateError : Option Unit

/-- Model of `Loader.validate` from the repository: nil source, then nil
formatter, are rejected. -/
def Loader.validateL (l : Loader) : Option Err :=
  match l.source, l.formatter with
  | none, _ => some .sourceIsNil
  | some _, none => some .formatterIsNil
  | some _, some _ => none

/-- Model of the `ConfigManager` state.  A `ValidateFunc` is modelled by
the result it returns when called (`Option Err`), wrapped in an outer
`Option` whose `none` models a nil function value.  `constructor`'s
`some v` models a constructor that returns a fresh copy of `v` on every
call (`none` = nil constructor); `ctorMerger` and `ctorValidator` are the
`Merge` and `Validate` methods of the constructed dynamic type, when that
type implements the `Merger` / `Validator` interfaces.  `namedValidators`
is the Go map modelled as an association list; permuted lists represent
the same Go map, since Go fixes no iteration order. -/
structure ConfigManager where
  constructor : Option Value
  ctorMerger : Option (Value → Value → Except Err Value)
  ctorValidator : Option (Value → Option Err)
  loaders : List Loader
  validators : List (Option (Option Err))
  namedValidators : List (String × Option (Option Err))
  isRunning : Bool
  current : Option Value

/-- Go `%q` on a string (as used by `fmt.Errorf("validator %q: ...")`). -/
def quoteStr (s : String) : String := "\"" ++ s ++ "\""

/-- Model of `ConfigManager.validateConstructor`: nil constructor, then
non-pointer-to-struct (a nil typed pointer also lands here: its `Elem`
has `Invalid` kind), then non-zero pointee. -/
def ConfigManager.validateConstructorM (cm : ConfigManager) : Option Err :=
  match cm.constructor with
  | none => some .constructorIsNil
  | some c =>
    match c with
    | .vPtrSome (.vStruct fs) =>
      if fieldsZero fs then none else some .constructorMustReturnZeroStruct
    | _ => some .constructorMustBePointer

/-- First named validator that is a nil function, if any (the order is the
Go map iteration order, modelled by the list order). -/
def firstNilNamed : List (String × Option (Option Err)) → Option String
  | [] => none
  | (n, none) :: _ => some n
  | _ :: rest => firstNilNamed rest

/-- Index of the first positional validator that is a nil function. -/
def firstNilPos (i : Nat) : List (Option (Option Err)) → Option Nat
  | [] => none
  | none :: _ => some i
  | some _ :: rest => firstNilPos (i + 1) rest

/-- Index and error of the first invalid loader. -/
def firstBadLoader (i : Nat) : List Loader → Option (Nat × Err)
  | [] => none
  | l :: rest =>
    match l.validateL with
    | some e => some (i, e)
    | none => firstBadLoader (i + 1) rest

/-- Model of `ConfigManager.validatePreRunState`: constructor, then nil
named validators, then nil positional validators, then the non-empty
loader check, then each loader's own validation, each failure wrapped
with the message the Go code uses. -/
def ConfigManager.validatePreRunStateM (cm : ConfigManager) : Option Err :=
  match cm.validateConstructorM with
  | some e => some (.wrap "validate constructor" e)
  | none =>
    match firstNilNamed cm.namedValidators with
    | some n => some (.wrap ("validator " ++ quoteStr n) .validatorIsNil)
    | none =>
      match firstNilPos 0 cm.validators with
      | some i => some (.wrap ("validator #" ++ toString i) .validatorIsNil)
      | none =>
        if cm.loaders.isEmpty then some .noLoadersDefined
        else
          match firstBadLoader 0 cm.loaders with
          | some (i, e) => some (.wrap ("loader #" ++ toString i) e)
          | none => none

/-- Run the named validators in map-iteration (list) order; stop at the
first failure, wrapping it with `named validator %q`.  Calling a nil
function would panic in Go; this is modelled by a `goPanic` error. -/
def runNamedValidators : List (String × Option (Option Err)) → Option Err × List VEvent
  | [] => (none, [])
  | (_, none) :: _ => (some (.goPanic "call of nil ValidateFunc"), [])
  | (n, some res) :: rest =>
    match res with
    | some e => (some (.wrap ("named validator " ++ quoteStr n) e), [.namedEv n])
    | none =>
      let (r, evs) := runNamedValidators rest
      (r, .namedEv n :: evs)

/-- Run the positional validators in index order starting at `i`; stop at
the first failure, wrapping it with `validator %d`. -/
def runPosValidators (i : Nat) : List (Option (Option Err)) → Option Err × List VEvent
  | [] => (none, [])
  | none :: _ => (some (.goPanic "call of nil ValidateFunc"), [])
  | some res :: rest =>
    match res with
    | some e => (some (.wrap ("validator " ++ toString i) e), [.posEv i])
    | none =>
      let (r, evs) := runPosValidators (i + 1) rest
      (r, .posEv i :: evs)

/-- Model of `ConfigManager.validate`: if the configuration's dynamic type
implements `Validator`, its `Validate` runs first and its error is
returned untagged; then the named validators (Go map iteration order),
then the positional validators, first failure wins. -/
def ConfigManager.validateM (cm : ConfigManager) (config : Value) :
    Option Err × List VEvent :=
  let head : Option Err × List VEvent :=
    match cm.ctorValidator with
    | some v => (v config, [.typeValidateEv])
    | none => (none, [])
  match head with
  | (some e, evs) => (some e, evs)
  | (none, evs) =>
    match runNamedValidators cm.namedValidators with
    | (some e, nevs) => (some e, evs ++ nevs)
    | (none, nevs) =>
      let (r, pevs) := runPosValidators 0 cm.validators
      (r, evs ++ nevs ++ pevs)

/-- One loader step of the reload pipeline: read the source, decode into a
fresh scratch value produced by the constructor, merge the scratch value
into the accumulator, wrapping failures with the repository's messages. -/
def loaderStep (merger : Option (Value → Value → Except Err Value))
    (ctorRet : Value) (i : Nat) (l : Loader) (merged : Value) :
    Except Err Value × List LEvent :=
  match l.source with
  | none => (.error (.goPanic "call of Read on nil Source"), [])
  | some readRes =>
    match readRes with
    | .error e => (.error (.wrap "read data from modTimer" e), [.readEv i])
    | .ok data =>
      match l.formatter with
      | none => (.error (.goPanic "call of Unmarshal on nil Formatter"), [.readEv i])
      | some f =>
        match f data ctorRet with
        | .error e =>
          (.error (.wrap "unmarshal data into config type" e), [.readEv i, .unmarshalEv i])
        | .ok temp =>
          match (mergeStep merger merged temp).1 with
          | .error e => (.error (.wrap "merge" e), [.readEv i, .unmarshalEv i, .mergeEv i])
          | .ok merged2 => (.ok merged2, [.readEv i, .unmarshalEv i, .mergeEv i])

/-- Process the loaders in registration order starting at index `i`,
threading the accumulator; stop at the first failing step. -/
def processLoaders (merger : Option (Value → Value → Except Err Value))
    (ctorRet : Value) : Nat → List Loader → Value → Except Err Value × List LEvent
  | _, [], merged => (.ok merged, [])
  | i, l :: rest, merged =>
    match loaderStep merger ctorRet i l merged with
    | (.error e, evs) => (.error e, evs)
    | (.ok merged2, evs) =>
      let (r, evs2) := processLoaders merger ctorRet (i + 1) rest merged2
      (r, evs ++ evs2)

/-- Result of a reload: the manager state afterwards, the returned error
(if any), and the traces of loader and validator activity. -/
structure ReloadOut where
  state : ConfigManager
  res : Except Err Unit
  loaderTrace : List LEvent
  valTrace : List VEvent

/-- Model of `ConfigManager.reload`: build a fresh accumulator from the
constructor, process every loader in order (read, decode, merge), then
validate; only on full success is `current` replaced (with the fully
merged value, wholesale); on any failure the state is returned as it
was. -/
def ConfigManager.reloadM (cm : ConfigManager) : ReloadOut :=
  match cm.constructor with
  | none => ⟨cm, .error (.goPanic "call of nil ConstructorFunc"), [], []⟩
  | some ctorRet =>
    match processLoaders cm.ctorMerger ctorRet 0 cm.loaders ctorRet with
    | (.error e, levs) => ⟨cm, .error e, levs, []⟩
    | (.ok merged, levs) =>
      match cm.validateM merged with
      | (some e, vevs) => ⟨cm, .error (.wrap "validate config" e), levs, vevs⟩
      | (none, vevs) => ⟨{ cm with current := some merged }, .ok (), levs, vevs⟩

/-- Result of `Start`: the state afterwards, the returned error, the reload
traces, and the indices of the loaders whose watchers were armed by
`runWatchers`. -/
structure StartOut where
  state : ConfigManager
  res : Option Err
  loaderTrace : List LEvent
  valTrace : List VEvent
  armed : List Nat

/-- Indices of the loaders that have a watcher, in order. -/
def watcherIdx (i : Nat) : List Loader → List Nat
  | [] => []
  | l :: rest =>
    match l.watcher with
    | none => watcherIdx (i + 1) rest
    | some _ => i :: watcherIdx (i + 1) rest

/-- Model of `ConfigManager.Start`: no-op when already running; otherwise
pre-flight validation, one synchronous reload, arming of the watchers,
and only then the running flag is set. -/
def ConfigManager.StartM (cm : ConfigManager) : StartOut :=
  if cm.isRunning then ⟨cm, none, [], [], []⟩
  else
    match cm.validatePreRunStateM with
    | some e => ⟨cm, some (.wrap "validate config manager state" e), [], [], []⟩
    | none =>
      let r := cm.reloadM
      match r.res with
      | .error e => ⟨r.state, some (.wrap "initial load config" e), r.loaderTrace, r.valTrace, []⟩
      | .ok _ =>
        ⟨{ r.state with isRunning := true }, none, r.loaderTrace, r.valTrace,
          watcherIdx 0 cm.loaders⟩

/-- Result of `Stop`: the state afterwards, the returned error, and the
trace of watcher stops and of the clearing of the running flag. -/
structure StopOut where
  state : ConfigManager
  res : Option Err
  trace : List SEvent

/-- Stop every watcher present, in loader order, collecting the events and
the non-nil errors. -/
def watcherStops (i : Nat) : List Loader → List SEvent × List Err
  | [] => ([], [])
  | l :: rest =>
    let (evs, errs) := watcherStops (i + 1) rest
    match l.watcher with
    | none => (evs, errs)
    | some w =>
      match w.stopRes with
      | none => (.watcherStopEv i :: evs, errs)
      | some e => (.watcherStopEv i :: evs, e :: errs)

/-- Model of `ConfigManager.Stop`: no-op when not running; otherwise every
watcher present is stopped in loader order, all errors are collected and
joined, and the running flag is cleared on return (via `defer`, hence
after the watcher stops) regardless of failures. -/
def ConfigManager.StopM (cm : ConfigManager) : StopOut :=
  if !cm.isRunning then ⟨cm, none, []⟩
  else
    let (evs, errs) := watcherStops 0 cm.loaders
    let res : Option Err :=
      if errs.isEmpty then none
      else some (.wrap "stop running watchers" (.joined errs))
    ⟨{ cm with isRunning := false }, res, evs ++ [.clearRunningEv]⟩

/-- Model of `ConfigManager.AddLoader`: append the loader, nothing else —
no validation, no check of the running flag. -/
def ConfigManager.AddLoaderM (cm : ConfigManager) (l : Loader) : ConfigManager :=
  { cm with loaders := cm.loaders ++ [l] }

/-- Model of `ConfigManager.Config`: the currently exposed snapshot. -/
def ConfigManager.ConfigM (cm : ConfigManager) : Option Value :=
  cm.current

/-- Type of `testInnerConfig`: an `Int` and a `String` field. -/
def innerTy : Ty := .tStruct (.cons .tInt (.cons .tStr .nil))

/-- Field types of `TestConfig`: `Int`, `*int`, `testInnerConfig`,
`*testInnerConfig`, `map[string]string`, `[]string`. -/
def testConfigFieldTys : TyList :=
  .cons .tInt (.cons (.tPtr .tInt) (.cons innerTy (.cons (.tPtr innerTy)
    (.cons (.tMap .tStr) (.cons (.tSlice .tStr) .nil)))))

/-- Type of `TestConfig`. -/
def testConfigTy : Ty := .tStruct testConfigFieldTys

/-- Build a `testInnerConfig` value. -/
def mkInner (i : Int) (s : String) : Value :=
  .vStruct (.cons (.vInt i) (.cons (.vStr s) .nil))

/-- Build a `TestConfig` value from its six fields. -/
def mkTC (i : Int) (ip inner innerP m sl : Value) : Value :=
  .vStruct (.cons (.vInt i) (.cons ip (.cons inner (.cons innerP
    (.cons m (.cons sl .nil))))))

/-- The zero `TestConfig`. -/
def zeroTC : Value :=
  mkTC 0 (.vPtrNil .tInt) (mkInner 0 "") (.vPtrNil innerTy) (.vMapNil .tStr)
    (.vSliceNil .tStr)

/-- A `TestConfig` with only the `Int` field set. -/
def tcInt (i : Int) : Value :=
  mkTC i (.vPtrNil .tInt) (mkInner 0 "") (.vPtrNil innerTy) (.vMapNil .tStr)
    (.vSliceNil .tStr)

/-- Model of `TestConfigAsMerger.Merge` from options.go: fails when the
receiver's `Int` is 123, otherwise sets the receiver's `Int` to the
other's `Int` plus one. -/
def tcmMerge (dst other : Value) : Except Err Value :=
  match dst, other with
  | .vPtrSome (.vStruct (.cons (.vInt d) rest)), .vPtrSome (.vStruct (.cons (.vInt o) _)) =>
    if d == 123 then .error (.userErr "test merge error")
    else .ok (.vPtrSome (.vStruct (.cons (.vInt (o + 1)) rest)))
  | _, _ => .error (.userErr "error converting other config to *TestConfigAsMerger")

mutual

/-- Predicate under which left-zero absorption holds: no slice reachable
through struct fields is non-nil but empty (such a slice cannot
resurrect the destination's nil slice). -/
def absorbable : Value → Bool
  | .vSlice _ l => vlen l != 0
  | .vStruct fs => absorbableFields fs
  | _ => true

/-- All fields satisfy `absorbable`. -/
def absorbableFields : ValueList → Bool
  | .nil => true
  | .cons v vs => absorbable v && absorbableFields vs

end

/-- Keys of a map entry list, in order. -/
def entryKeys : EntryList → List String
  | .nil => []
  | .cons k _ es => k :: entryKeys es

/-- Loader index an event refers to. -/
def evIdx : LEvent → Nat
  | .readEv i => i
  | .unmarshalEv i => i
  | .mergeEv i => i

/-- The complete event triple of a fully processed loader. -/
def loaderEvents (i : Nat) : List LEvent :=
  [.readEv i, .unmarshalEv i, .mergeEv i]

/-- The complete loader trace of a reload over `n` loaders starting at
index `i`. -/
def canonicalLoaderTrace : Nat → Nat → List LEvent
  | _, 0 => []
  | i, n + 1 => loaderEvents i ++ canonicalLoaderTrace (i + 1) n

/-- The list `xs` is an initial segment of `ys`. -/
def frontOf {α : Type} (xs ys : List α) : Prop :=
  ∃ t, xs ++ t = ys

/-- The events of the named validators of `l`, in order. -/
def namedEvents (l : List (String × Option (Option Err))) : List VEvent :=
  l.map (fun p => .namedEv p.1)

/-- The events of the positional validators of `l`, indexed from `i`. -/
def posEvents : Nat → List (Option (Option Err)) → List VEvent
  | _, [] => []
  | i, _ :: rest => .posEv i :: posEvents (i + 1) rest

/-- The event of the configuration type's own `Validate`, when present. -/
def tyValEvents (cm : ConfigManager) : List VEvent :=
  match cm.ctorValidator with
  | some _ => [.typeValidateEv]
  | none => []

/-- The configuration type's own validation passes (or is absent). -/
def tyPasses (cm : ConfigManager) (cfg : Value) : Prop :=
  cm.ctorValidator = none ∨ ∃ v, cm.ctorValidator = some v ∧ v cfg = none

/-- The stop errors the loaders' watchers produce, in loader order. -/
def stopErrsOf (ls : List Loader) : List Err :=
  ls.filterMap (fun l =>
    match l.watcher with
    | some w => w.stopRes
    | none => none)

/-- Pointer to a one-int-field struct, the simplest configuration value. -/
def onePtr (i : Int) : Value := .vPtrSome (.vStruct (.cons (.vInt i) .nil))

/-- A formatter that leaves the scratch value as constructed. -/
def idFormatter : String → Value → Except Err Value := fun _ temp => .ok temp

/-- A formatter that decodes every input to the fixed value `v`. -/
def constFormatter (v : Value) : String → Value → Except Err Value := fun _ _ => .ok v

/-- A loader whose source reads fine and whose formatter yields `v`. -/
def okLoader (v : Value) : Loader :=
  ⟨some (.ok "data"), some (constFormatter v), none, none, none⟩

/-- A loader whose source fails to read. -/
def badReadLoader : Loader :=
  ⟨some (.error (.userErr "boom")), some idFormatter, none, none, none⟩

/-- A loader with a watcher whose `Stop` returns `r`. -/
def watchLoader (r : Option Err) : Loader :=
  ⟨some (.ok "data"), some idFormatter, some ⟨r⟩, none, none⟩

/-- Running manager whose second loader fails at read. -/
def cmC1 : ConfigManager :=
  ⟨some (onePtr 0), none, none,
    [okLoader (onePtr 7), badReadLoader, okLoader (onePtr 9)],
    [], [], true, some (onePtr 5)⟩

/-- Manager with only named validators. -/
def cmNamed (l : List (String × Option (Option Err))) : ConfigManager :=
  ⟨some (onePtr 0), none, none, [], [], l, false, none⟩

/-- Manager with a succeeding type-level `Validate`, one passing positional
validator, one passing and one failing named validator. -/
def cmC3 : ConfigManager :=
  ⟨some (onePtr 0), none, some (fun _ => none), [], [some none],
    [("a", some none), ("b", some (some (.userErr "eb")))], false, none⟩

/-- Running manager with a single watched loader whose stop succeeds. -/
def cmC4 : ConfigManager :=
  ⟨some (onePtr 0), none, none, [watchLoader none], [], [], true, some (onePtr 5)⟩

/-- Running manager with one watched loader whose watcher stop fails. -/
def cmNamedStopErr : ConfigManager :=
  ⟨some (onePtr 0), none, none, [watchLoader (some (.userErr "stop failed"))],
    [], [], true, some (onePtr 5)⟩

/-- Stopped manager with a valid constructor and no loaders. -/
def cmC5a : ConfigManager :=
  ⟨some (onePtr 0), none, none, [], [], [], false, none⟩

/-- Stopped manager whose constructor returns a non-zero struct. -/
def cmC5b : ConfigManager :=
  ⟨some (onePtr 1), none, none, [okLoader (onePtr 7)], [], [], false, none⟩

/-- Stopped manager with a single good loader, for the AddLoader witness. -/
def cmC10 : ConfigManager :=
  ⟨some (onePtr 0), none, none, [okLoader (onePtr 7)], [], [], false, none⟩

/-! Theorems. -/

/-- The zero value of `TestConfig` is the zero of its type and is zero. -/
theorem zeroTC_is_zero : zeroOfTy testConfigTy = zeroTC ∧ isZeroValue zeroTC = true :=
  ⟨rfl, rfl⟩

/-- Repository test rows "dst is not a pointer", "dst is not a struct",
"src is not a struct", "src dst have different type" of
`TestConfigManager_merge`: each is an error in the model too. -/
theorem mergeRepoTests_errorRows :
    (mergoMerge zeroTC (.vPtrSome zeroTC)).isOk = false ∧
    (mergoMerge (.vPtrSome (.vInt 1)) (.vPtrSome zeroTC)).isOk = false ∧
    (mergoMerge (.vPtrSome zeroTC) (.vPtrSome (.vInt 1))).isOk = false ∧
    (mergoMerge (.vPtrSome zeroTC) (.vPtrSome (.vStruct .nil))).isOk = false :=
  ⟨rfl, rfl, rfl, rfl⟩

/-- Repository test rows "src is not a pointer", "single field override",
"no override by zero value", "zero value field override", "multiple
fields override". -/
theorem mergeRepoTests_fieldRows :
    mergoMerge (.vPtrSome (tcInt 1)) (tcInt 2) = .ok (.vPtrSome (tcInt 2)) ∧
    mergoMerge (.vPtrSome (tcInt 1)) (.vPtrSome (tcInt 2)) = .ok (.vPtrSome (tcInt 2)) ∧
    mergoMerge
      (.vPtrSome (mkTC 1 (.vPtrSome (.vInt 123)) (mkInner 0 "") (.vPtrNil innerTy)
        (.vMapNil .tStr) (.vSliceNil .tStr)))
      (.vPtrSome (tcInt 2)) =
      .ok (.vPtrSome (mkTC 2 (.vPtrSome (.vInt 123)) (mkInner 0 "") (.vPtrNil innerTy)
        (.vMapNil .tStr) (.vSliceNil .tStr))) ∧
    mergoMerge (.vPtrSome zeroTC) (.vPtrSome (tcInt 2)) = .ok (.vPtrSome (tcInt 2)) ∧
    mergoMerge
      (.vPtrSome (mkTC 1 (.vPtrSome (.vInt 123)) (mkInner 0 "") (.vPtrNil innerTy)
        (.vMapNil .tStr) (.vSliceNil .tStr)))
      (.vPtrSome (mkTC 2 (.vPtrSome (.vInt 321)) (mkInner 0 "") (.vPtrNil innerTy)
        (.vMapNil .tStr) (.vSliceNil .tStr))) =
      .ok (.vPtrSome (mkTC 2 (.vPtrSome (.vInt 321)) (mkInner 0 "") (.vPtrNil innerTy)
        (.vMapNil .tStr) (.vSliceNil .tStr))) :=
  ⟨rfl, rfl, rfl, rfl, rfl⟩

/-- Repository test rows "inner struct custom merge", "inner struct pointer
custom merge", "override inner struct nil pointer": nested structs and
pointers recurse, a non-nil incoming pointer overrides a nil one. -/
theorem mergeRepoTests_innerRows :
    mergoMerge
      (.vPtrSome (mkTC 0 (.vPtrNil .tInt) (mkInner 1 "str") (.vPtrNil innerTy)
        (.vMapNil .tStr) (.vSliceNil .tStr)))
      (.vPtrSome (mkTC 0 (.vPtrNil .tInt) (mkInner 2 "") (.vPtrNil innerTy)
        (.vMapNil .tStr) (.vSliceNil .tStr))) =
      .ok (.vPtrSome (mkTC 0 (.vPtrNil .tInt) (mkInner 2 "str") (.vPtrNil innerTy)
        (.vMapNil .tStr) (.vSliceNil .tStr))) ∧
    mergoMerge
      (.vPtrSome (mkTC 0 (.vPtrNil .tInt) (mkInner 0 "") (.vPtrSome (mkInner 1 "str"))
        (.vMapNil .tStr) (.vSliceNil .tStr)))
      (.vPtrSome (mkTC 0 (.vPtrNil .tInt) (mkInner 0 "") (.vPtrSome (mkInner 2 ""))
        (.vMapNil .tStr) (.vSliceNil .tStr))) =
      .ok (.vPtrSome (mkTC 0 (.vPtrNil .tInt) (mkInner 0 "") (.vPtrSome (mkInner 2 "str"))
        (.vMapNil .tStr) (.vSliceNil .tStr))) ∧
    mergoMerge
      (.vPtrSome zeroTC)
      (.vPtrSome (mkTC 0 (.vPtrNil .tInt) (mkInner 0 "") (.vPtrSome (mkInner 2 ""))
        (.vMapNil .tStr) (.vSliceNil .tStr))) =
      .ok (.vPtrSome (mkTC 0 (.vPtrNil .tInt) (mkInner 0 "") (.vPtrSome (mkInner 2 ""))
        (.vMapNil .tStr) (.vSliceNil .tStr))) :=
  ⟨rfl, rfl, rfl⟩

/-- Repository test rows "override inner map", "no override by zero map",
"override inner slice", "no override by zero slice". -/
theorem mergeRepoTests_collectionRows :
    mergoMerge
      (.vPtrSome (mkTC 0 (.vPtrNil .tInt) (mkInner 0 "") (.vPtrNil innerTy)
        (.vMap .tStr (.cons "foo" (.vStr "bar") (.cons "the_one" (.vStr "to_replace") .nil)))
        (.vSliceNil .tStr)))
      (.vPtrSome (mkTC 0 (.vPtrNil .tInt) (mkInner 0 "") (.vPtrNil innerTy)
        (.vMap .tStr (.cons "the_one" (.vStr "with_updated_value") .nil))
        (.vSliceNil .tStr))) =
      .ok (.vPtrSome (mkTC 0 (.vPtrNil .tInt) (mkInner 0 "") (.vPtrNil innerTy)
        (.vMap .tStr (.cons "foo" (.vStr "bar")
          (.cons "the_one" (.vStr "with_updated_value") .nil)))
        (.vSliceNil .tStr))) ∧
    mergoMerge
      (.vPtrSome (mkTC 0 (.vPtrNil .tInt) (mkInner 0 "") (.vPtrNil innerTy)
        (.vMap .tStr (.cons "foo" (.vStr "bar") (.cons "the_one" (.vStr "to_replace") .nil)))
        (.vSliceNil .tStr)))
      (.vPtrSome zeroTC) =
      .ok (.vPtrSome (mkTC 0 (.vPtrNil .tInt) (mkInner 0 "") (.vPtrNil innerTy)
        (.vMap .tStr (.cons "foo" (.vStr "bar") (.cons "the_one" (.vStr "to_replace") .nil)))
        (.vSliceNil .tStr))) ∧
    mergoMerge
      (.vPtrSome (mkTC 0 (.vPtrNil .tInt) (mkInner 0 "") (.vPtrNil innerTy)
        (.vMapNil .tStr)
        (.vSlice .tStr (.cons (.vStr "first") (.cons (.vStr "second") .nil)))))
      (.vPtrSome (mkTC 0 (.vPtrNil .tInt) (mkInner 0 "") (.vPtrNil innerTy)
        (.vMapNil .tStr) (.vSlice .tStr (.cons (.vStr "third") .nil)))) =
      .ok (.vPtrSome (mkTC 0 (.vPtrNil .tInt) (mkInner 0 "") (.vPtrNil innerTy)
        (.vMapNil .tStr) (.vSlice .tStr (.cons (.vStr "third") .nil)))) ∧
    mergoMerge
      (.vPtrSome (mkTC 0 (.vPtrNil .tInt) (mkInner 0 "") (.vPtrNil innerTy)
        (.vMapNil .tStr)
        (.vSlice .tStr (.cons (.vStr "first") (.cons (.vStr "second") .nil)))))
      (.vPtrSome zeroTC) =
      .ok (.vPtrSome (mkTC 0 (.vPtrNil .tInt) (mkInner 0 "") (.vPtrNil innerTy)
        (.vMapNil .tStr)
        (.vSlice .tStr (.cons (.vStr "first") (.cons (.vStr "second") .nil))))) :=
  ⟨rfl, rfl, rfl, rfl⟩

/-- Repository test rows "Merger config" and "Merger config with error":
with a custom merger the result is the custom method's, including its
errors. -/
theorem mergeRepoTests_mergerRows :
    mergeStep (some tcmMerge) (.vPtrSome zeroTC) (.vPtrSome (tcInt 1)) =
      (.ok (.vPtrSome (tcInt 2)), false) ∧
    (mergeStep (some tcmMerge) (.vPtrSome (tcInt 123)) (.vPtrSome (tcInt 122))).1 =
      .error (.userErr "test merge error") :=
  ⟨rfl, rfl⟩

/-! Merge-engine lemmas. -/

mutual

/-- Merging a zero-valued source leaves the destination unchanged. -/
theorem deepMerge_zero_src : ∀ (d s : Value), isZeroValue s = true → deepMerge d s = d
  | d, .vInt n, h => by
    have hn : (n == 0) = true := by simpa [isZeroValue] using h
    cases d <;> simp [deepMerge, hn]
  | d, .vStr s0, h => by
    have hs : (s0 == "") = true := by simpa [isZeroValue] using h
    cases d <;> simp [deepMerge, hs]
  | d, .vPtrNil t, _ => by cases d <;> simp [deepMerge]
  | _, .vPtrSome v, h => by simp [isZeroValue] at h
  | d, .vStruct ss, h => by
    have hz : fieldsZero ss = true := by simpa [isZeroValue] using h
    cases d <;> simp [deepMerge]
    exact mergeFields_zero_src _ ss hz
  | d, .vMapNil t, _ => by cases d <;> simp [deepMerge]
  | _, .vMap t es, h => by simp [isZeroValue] at h
  | d, .vSliceNil t, _ => by cases d <;> simp [deepMerge]
  | _, .vSlice t l, h => by simp [isZeroValue] at h

/-- Field-wise merge of an all-zero source field list is the identity. -/
theorem mergeFields_zero_src : ∀ (ds ss : ValueList), fieldsZero ss = true →
    mergeFields ds ss = ds
  | ds, .nil, _ => by cases ds <;> simp [mergeFields]
  | .nil, .cons s ss, _ => by simp [mergeFields]
  | .cons d ds, .cons s ss, h => by
    have h1 : isZeroValue s = true := by
      have := h
      simp [fieldsZero] at this
      exact this.1
    have h2 : fieldsZero ss = true := by
      have := h
      simp [fieldsZero] at this
      exact this.2
    simp [mergeFields, deepMerge_zero_src d s h1, mergeFields_zero_src ds ss h2]

end

mutual

/-- Merging into the zero value of the source's type yields the source,
provided no struct field of the source is a non-nil empty slice. -/
theorem deepMerge_zero_dst : ∀ (s : Value) (t : Ty), typeOf s = some t →
    absorbable s = true → deepMerge (zeroOfTy t) s = s
  | .vInt n, t, ht, _ => by
    simp [typeOf] at ht
    subst ht
    by_cases hn : n = 0 <;> simp [zeroOfTy, deepMerge, hn]
  | .vStr s0, t, ht, _ => by
    simp [typeOf] at ht
    subst ht
    by_cases hs : s0 = "" <;> simp [zeroOfTy, deepMerge, hs]
  | .vPtrNil t0, t, ht, _ => by
    simp [typeOf] at ht
    subst ht
    simp [zeroOfTy, deepMerge]
  | .vPtrSome v, t, ht, _ => by
    simp [typeOf] at ht
    obtain ⟨tv, _, rfl⟩ := ht
    simp [zeroOfTy, deepMerge]
  | .vStruct ss, t, ht, ha => by
    simp [typeOf] at ht
    obtain ⟨ts, hts, rfl⟩ := ht
    have ha2 : absorbableFields ss = true := by simpa [absorbable] using ha
    simp [zeroOfTy, deepMerge]
    exact mergeFieldsZeroDst ss ts hts ha2
  | .vMapNil t0, t, ht, _ => by
    simp [typeOf] at ht
    subst ht
    simp [zeroOfTy, deepMerge]
  | .vMap t0 es, t, ht, _ => by
    simp [typeOf] at ht
    obtain ⟨_, rfl⟩ := ht
    simp [zeroOfTy, deepMerge]
  | .vSliceNil t0, t, ht, _ => by
    simp [typeOf] at ht
    subst ht
    simp [zeroOfTy, deepMerge]
  | .vSlice t0 l, t, ht, ha => by
    simp [typeOf] at ht
    obtain ⟨_, rfl⟩ := ht
    have hl : (vlen l != 0) = true := by simpa [absorbable] using ha
    simp [zeroOfTy, deepMerge]
    intro h0
    simp [h0] at hl

/-- Field list version of `deepMerge_zero_dst`. -/
theorem mergeFieldsZeroDst : ∀ (ss : ValueList) (ts : TyList),
    typeOfFields ss = some ts → absorbableFields ss = true →
    mergeFields (zeroOfFields ts) ss = ss
  | .nil, ts, ht, _ => by
    simp [typeOfFields] at ht
    subst ht
    simp [zeroOfFields, mergeFields]
  | .cons s ss, ts, ht, ha => by
    simp [typeOfFields] at ht
    rcases h1 : typeOf s with _ | t0
    · simp [h1] at ht
    rcases h2 : typeOfFields ss with _ | ts0
    · simp [h1, h2] at ht
    simp [h1, h2] at ht
    subst ht
    have ha1 : absorbable s = true := by
      have := ha
      simp [absorbableFields] at this
      exact this.1
    have ha2 : absorbableFields ss = true := by
      have := ha
      simp [absorbableFields] at this
      exact this.2
    simp [zeroOfFields, mergeFields, deepMerge_zero_dst s t0 h1 ha1,
      mergeFieldsZeroDst ss ts0 h2 ha2]

end

/-- A successful lookup means the key occurs in the entry list. -/
theorem lookupEntry_mem : ∀ (es : EntryList) (k : String) (v : Value),
    lookupEntry es k = some v → k ∈ entryKeys es
  | .nil, _, _, h => by simp [lookupEntry] at h
  | .cons k0 v0 es, k, v, h => by
    by_cases hk : k0 = k
    · simp [entryKeys, hk]
    · simp only [lookupEntry] at h
      rw [if_neg (by simpa using hk)] at h
      simp [entryKeys]
      right
      exact lookupEntry_mem es k v h

/-- Lookup after `setEntry`. -/
theorem lookupEntry_setEntry : ∀ (es : EntryList) (k : String) (v : Value) (key : String),
    lookupEntry (setEntry es k v) key =
      if k = key then some v else lookupEntry es key
  | .nil, k, v, key => by simp [setEntry, lookupEntry]
  | .cons k0 v0 es, k, v, key => by
    by_cases h0 : k0 = k
    · subst h0
      by_cases h1 : k0 = key <;> simp [setEntry, lookupEntry, h1]
    · by_cases h1 : k0 = key
      · subst h1
        have hk : ¬ k = k0 := fun h => h0 h.symm
        simp [setEntry, lookupEntry, h0, hk]
      · simp [setEntry, lookupEntry, h0, h1, lookupEntry_setEntry es k v key]

/-- Key-wise overlay: a key present in the (duplicate-free) incoming map
takes the incoming value, any other key keeps the accumulator's value. -/
theorem lookupEntry_mergeEntries : ∀ (ss ds : EntryList) (key : String),
    (entryKeys ss).Nodup →
    lookupEntry (mergeEntries ds ss) key =
      match lookupEntry ss key with
      | some v => some v
      | none => lookupEntry ds key
  | .nil, ds, key, _ => by simp [mergeEntries, lookupEntry]
  | .cons k v ss, ds, key, hnd => by
    have hnd2 : (entryKeys ss).Nodup := by
      simp [entryKeys] at hnd
      exact hnd.2
    have hk : k ∉ entryKeys ss := by
      simp [entryKeys] at hnd
      exact hnd.1
    have ih := lookupEntry_mergeEntries ss (setEntry ds k v) key hnd2
    simp only [mergeEntries]
    rw [ih]
    rcases hss : lookupEntry ss key with _ | w
    · by_cases hkk : k = key <;>
        simp [lookupEntry, hss, hkk, lookupEntry_setEntry]
    · have hkey : key ∈ entryKeys ss := lookupEntry_mem ss key w hss
      have hkne : ¬ k = key := fun h => hk (h ▸ hkey)
      simp [lookupEntry, hkne, hss]

mutual

/-- Reflexivity of `tyBeq`. -/
theorem tyBeq_refl : ∀ (t : Ty), tyBeq t t = true
  | .tInt => rfl
  | .tStr => rfl
  | .tPtr t => by simp [tyBeq, tyBeq_refl t]
  | .tStruct fs => by simp [tyBeq, tyListBeq_refl fs]
  | .tMap t => by simp [tyBeq, tyBeq_refl t]
  | .tSlice t => by simp [tyBeq, tyBeq_refl t]

/-- Reflexivity of `tyListBeq`. -/
theorem tyListBeq_refl : ∀ (ts : TyList), tyListBeq ts ts = true
  | .nil => rfl
  | .cons t ts => by simp [tyListBeq, tyBeq_refl t, tyListBeq_refl ts]

end

/-- C2, counterexample to the claim as stated: left-zero absorption fails
for a record whose slice field in the source is non-nil but empty — the
generic merge never copies an empty incoming slice, so the destination's
slice stays nil, and a nil slice is not structurally equal to an empty
one.  Concretely, merging the one-field record whose `[]string` field is
`[]string\x7b\x7d` into the zero value of its type yields the record with a
nil slice field, not the source. -/
theorem C2_counterexample :
    typeOf (.vStruct (.cons (.vSlice .tStr .nil) .nil)) =
      some (.tStruct (.cons (.tSlice .tStr) .nil)) ∧
    deepMerge (zeroOfTy (.tStruct (.cons (.tSlice .tStr) .nil)))
        (.vStruct (.cons (.vSlice .tStr .nil) .nil)) =
      .vStruct (.cons (.vSliceNil .tStr) .nil) ∧
    Value.vStruct (.cons (.vSliceNil .tStr) .nil) ≠
      Value.vStruct (.cons (.vSlice .tStr .nil) .nil) :=
  ⟨rfl, rfl, by simp⟩

/-- C2 (amended): for the generic structural merge, (1) merging a
zero-valued source into any destination leaves the destination unchanged
(identity element); (2) merging a source into the zero value of its type
yields the source, provided no struct field of the source is a non-nil
empty slice (the proviso `C2_counterexample` forces); (3) structs merge
field-wise; and (4) field-wise, for scalar fields, a non-zero incoming
value overwrites the accumulator's field and a zero incoming value never
overwrites it. -/
theorem C2_merge_override_laws :
    (∀ (d s : Value), isZeroValue s = true → deepMerge d s = d) ∧
    (∀ (s : Value) (t : Ty), typeOf s = some t → absorbable s = true →
      deepMerge (zeroOfTy t) s = s) ∧
    (∀ (ds ss : ValueList),
      deepMerge (.vStruct ds) (.vStruct ss) = .vStruct (mergeFields ds ss)) ∧
    (∀ (d0 s0 : Value) (d1 s1 : ValueList),
      mergeFields (.cons d0 d1) (.cons s0 s1) =
        .cons (deepMerge d0 s0) (mergeFields d1 s1)) ∧
    (∀ (d n : Int), deepMerge (.vInt d) (.vInt n) = if n = 0 then .vInt d else .vInt n) ∧
    (∀ (d s : String), deepMerge (.vStr d) (.vStr s) = if s = "" then .vStr d else .vStr s) := by
  refine ⟨deepMerge_zero_src, deepMerge_zero_dst, fun ds ss => rfl, fun d0 s0 d1 s1 => rfl, ?_, ?_⟩
  · intro d n
    by_cases hn : n = 0 <;> simp [deepMerge, hn]
  · intro d s
    by_cases hs : s = "" <;> simp [deepMerge, hs]

/-- C2 witness: the amended laws applied to concrete `TestConfig` values. -/
theorem C2_merge_override_laws_witness :
    deepMerge (tcInt 5) zeroTC = tcInt 5 ∧
    deepMerge (zeroOfTy testConfigTy) (tcInt 5) = tcInt 5 :=
  ⟨C2_merge_override_laws.1 (tcInt 5) zeroTC rfl,
   C2_merge_override_laws.2.1 (tcInt 5) testConfigTy rfl rfl⟩

/-- C6: when the configuration type implements the custom-merge capability,
`merge` delegates entirely to the type's own method — the result,
including any error, is exactly the custom method's result, the generic
structural merge path is not invoked (second component `false`), and the
generic path runs only when no custom merger exists. -/
theorem C6_custom_merge_precedence :
    ∀ (m : Value → Value → Except Err Value) (dst src : Value),
      mergeStep (some m) dst src = (m dst src, false) ∧
      mergeStep none dst src = (mergoMerge dst src, true) := by
  intro m dst src
  exact ⟨rfl, rfl⟩

/-- C7: maps overlay key-wise (new keys added, existing keys overwritten,
untouched keys preserved — with the claim's `\x7ba:1,b:2\x7d` into
`\x7ba:0,c:3\x7d` example), a non-empty incoming slice replaces the
accumulator's slice wholesale, and empty or nil incoming collections
never erase existing data. -/
theorem C7_collection_merge :
    (∀ (t t2 : Ty) (ds ss : EntryList),
      deepMerge (.vMap t ds) (.vMap t2 ss) = .vMap t (mergeEntries ds ss)) ∧
    (∀ (ds ss : EntryList) (key : String), (entryKeys ss).Nodup →
      lookupEntry (mergeEntries ds ss) key =
        match lookupEntry ss key with
        | some v => some v
        | none => lookupEntry ds key) ∧
    (lookupEntry (mergeEntries
        (.cons "a" (.vInt 0) (.cons "c" (.vInt 3) .nil))
        (.cons "a" (.vInt 1) (.cons "b" (.vInt 2) .nil))) "a" = some (.vInt 1) ∧
     lookupEntry (mergeEntries
        (.cons "a" (.vInt 0) (.cons "c" (.vInt 3) .nil))
        (.cons "a" (.vInt 1) (.cons "b" (.vInt 2) .nil))) "b" = some (.vInt 2) ∧
     lookupEntry (mergeEntries
        (.cons "a" (.vInt 0) (.cons "c" (.vInt 3) .nil))
        (.cons "a" (.vInt 1) (.cons "b" (.vInt 2) .nil))) "c" = some (.vInt 3)) ∧
    (∀ (t t2 : Ty) (d s : ValueList), vlen s ≠ 0 →
      deepMerge (.vSlice t d) (.vSlice t2 s) = .vSlice t2 s ∧
      deepMerge (.vSliceNil t) (.vSlice t2 s) = .vSlice t2 s) ∧
    (∀ (t t2 : Ty) (d : ValueList) (ds : EntryList),
      deepMerge (.vSlice t d) (.vSliceNil t2) = .vSlice t d ∧
      deepMerge (.vSlice t d) (.vSlice t2 .nil) = .vSlice t d ∧
      deepMerge (.vMap t ds) (.vMapNil t2) = .vMap t ds ∧
      deepMerge (.vMap t ds) (.vMap t2 .nil) = .vMap t ds) := by
  refine ⟨fun t t2 ds ss => rfl, fun ds ss key h => lookupEntry_mergeEntries ss ds key h,
    ⟨rfl, rfl, rfl⟩, ?_, ?_⟩
  · intro t t2 d s hs
    constructor <;> simp [deepMerge, hs]
  · intro t t2 d ds
    exact ⟨rfl, rfl, rfl, rfl⟩

/-- C7 witness: the overlay and replacement laws applied to the concrete
collections from the repository's test table. -/
theorem C7_collection_merge_witness :
    lookupEntry (mergeEntries
        (.cons "foo" (.vStr "bar") (.cons "the_one" (.vStr "to_replace") .nil))
        (.cons "the_one" (.vStr "with_updated_value") .nil)) "foo" = some (.vStr "bar") ∧
    deepMerge (.vSlice .tStr (.cons (.vStr "first") (.cons (.vStr "second") .nil)))
        (.vSlice .tStr (.cons (.vStr "third") .nil)) =
      .vSlice .tStr (.cons (.vStr "third") .nil) := by
  constructor
  · have h := C7_collection_merge.2.1
      (.cons "foo" (.vStr "bar") (.cons "the_one" (.vStr "to_replace") .nil))
      (.cons "the_one" (.vStr "with_updated_value") .nil) "foo" (by simp [entryKeys])
    rw [h]
    rfl
  · exact (C7_collection_merge.2.2.2.1 .tStr .tStr
      (.cons (.vStr "first") (.cons (.vStr "second") .nil))
      (.cons (.vStr "third") .nil) (by simp [vlen])).1

/-- C8, counterexample to the claim as stated: the source argument here is
a plain struct, not a pointer to one, yet the merge succeeds — exactly
the repository's own "src is not a pointer" test row (options.go), which
expects success with the source's values.  So "fails whenever either
argument is not a pointer to a structured record" is false for the
source argument. -/
theorem C8_counterexample :
    mergoMerge (.vPtrSome (tcInt 1)) (tcInt 2) = .ok (.vPtrSome (tcInt 2)) := rfl

/-- C8 (amended): the merge fails fast, without panicking, whenever the
destination is not a pointer (`mergoNonPointer`), is a nil pointer or a
pointer to a non-struct (`mergoNotSupported`), or the source — after
dereferencing it when it is a pointer — has a different underlying type
(`mergoDiffTypes`); a non-pointer struct source of the destination's
type is accepted. -/
theorem C8_merge_error_conditions :
    (∀ (dst src : Value), (∀ v, dst ≠ .vPtrSome v) → (∀ t, dst ≠ .vPtrNil t) →
      mergoMerge dst src = .error .mergoNonPointer) ∧
    (∀ (t : Ty) (src : Value), mergoMerge (.vPtrNil t) src = .error .mergoNotSupported) ∧
    (∀ (dv src : Value), (∀ fs, dv ≠ .vStruct fs) →
      mergoMerge (.vPtrSome dv) src = .error .mergoNotSupported) ∧
    (∀ (fs : ValueList) (src : Value) (td ts : Ty),
      typeOf (.vStruct fs) = some td → typeOf (derefSrc src) = some ts →
      tyBeq td ts = false →
      mergoMerge (.vPtrSome (.vStruct fs)) src = .error .mergoDiffTypes) ∧
    (∀ (fs : ValueList) (src : Value) (t : Ty),
      typeOf (.vStruct fs) = some t → typeOf (derefSrc src) = some t →
      mergoMerge (.vPtrSome (.vStruct fs)) src =
        .ok (.vPtrSome (deepMerge (.vStruct fs) (derefSrc src)))) := by
  refine ⟨?_, fun t src => rfl, ?_, ?_, ?_⟩
  · intro dst src h1 h2
    cases dst with
    | vPtrSome v => exact absurd rfl (h1 v)
    | vPtrNil t => exact absurd rfl (h2 t)
    | vInt n => rfl
    | vStr s => rfl
    | vStruct fs => rfl
    | vMapNil t => rfl
    | vMap t es => rfl
    | vSliceNil t => rfl
    | vSlice t l => rfl
  · intro dv src h
    cases dv with
    | vStruct fs => exact absurd rfl (h fs)
    | vInt n => rfl
    | vStr s => rfl
    | vPtrNil t => rfl
    | vPtrSome v => rfl
    | vMapNil t => rfl
    | vMap t es => rfl
    | vSliceNil t => rfl
    | vSlice t l => rfl
  · intro fs src td ts htd hts hne
    simp [mergoMerge, htd, hts, hne]
  · intro fs src t htd hts
    simp [mergoMerge, htd, hts, tyBeq_refl]

/-- C8 witness: the amended error conditions at concrete inputs, matching
the error rows of the repository's merge test table. -/
theorem C8_merge_error_conditions_witness :
    mergoMerge (.vInt 3) zeroTC = .error .mergoNonPointer ∧
    mergoMerge (.vPtrNil testConfigTy) zeroTC = .error .mergoNotSupported ∧
    mergoMerge (.vPtrSome (.vInt 3)) zeroTC = .error .mergoNotSupported ∧
    mergoMerge (.vPtrSome (.vStruct (.cons (.vInt 1) .nil))) (.vPtrSome (.vStruct .nil)) =
      .error .mergoDiffTypes ∧
    mergoMerge (.vPtrSome (.vStruct (.cons (.vInt 1) .nil)))
        (.vPtrSome (.vStruct (.cons (.vInt 2) .nil))) =
      .ok (.vPtrSome (deepMerge (.vStruct (.cons (.vInt 1) .nil))
        (derefSrc (.vPtrSome (.vStruct (.cons (.vInt 2) .nil)))))) := by
  refine ⟨?_, ?_, ?_, ?_, ?_⟩
  · exact C8_merge_error_conditions.1 (.vInt 3) zeroTC (by intro v h; cases h)
      (by intro t h; cases h)
  · exact C8_merge_error_conditions.2.1 testConfigTy zeroTC
  · exact C8_merge_error_conditions.2.2.1 (.vInt 3) zeroTC (by intro fs h; cases h)
  · exact C8_merge_error_conditions.2.2.2.1 (.cons (.vInt 1) .nil)
      (.vPtrSome (.vStruct .nil)) (.tStruct (.cons .tInt .nil)) (.tStruct .nil) rfl rfl rfl
  · exact C8_merge_error_conditions.2.2.2.2 (.cons (.vInt 1) .nil)
      (.vPtrSome (.vStruct (.cons (.vInt 2) .nil))) (.tStruct (.cons .tInt .nil)) rfl rfl

theorem frontOf_self {α : Type} (xs : List α) : frontOf xs xs :=
  ⟨[], List.append_nil xs⟩

theorem frontOf_extend {α : Type} (xs ys zs : List α) (h : frontOf xs ys) :
    frontOf xs (ys ++ zs) := by
  obtain ⟨t, ht⟩ := h
  exact ⟨t ++ zs, by rw [← List.append_assoc, ht]⟩

theorem frontOf_shift {α : Type} (xs ys zs : List α) (h : frontOf xs ys) :
    frontOf (zs ++ xs) (zs ++ ys) := by
  obtain ⟨t, ht⟩ := h
  exact ⟨t, by rw [List.append_assoc, ht]⟩

/-- The trace of a single loader step is an initial segment of the full
event triple for that loader. -/
theorem loaderStep_front (m : Option (Value → Value → Except Err Value))
    (c : Value) (i : Nat) (l : Loader) (acc : Value) :
    frontOf (loaderStep m c i l acc).2 (loaderEvents i) := by
  rcases hsrc : l.source with _ | (e | data)
  · simp only [loaderStep, hsrc]
    exact ⟨loaderEvents i, by rfl⟩
  · simp only [loaderStep, hsrc]
    exact ⟨[.unmarshalEv i, .mergeEv i], by rfl⟩
  rcases hfmt : l.formatter with _ | f
  · simp only [loaderStep, hsrc, hfmt]
    exact ⟨[.unmarshalEv i, .mergeEv i], by rfl⟩
  rcases hdec : f data c with e | temp
  · simp only [loaderStep, hsrc, hfmt, hdec]
    exact ⟨[.mergeEv i], by rfl⟩
  rcases hm : (mergeStep m acc temp).1 with e | merged2
  · simp only [loaderStep, hsrc, hfmt, hdec, hm]
    exact frontOf_self _
  · simp only [loaderStep, hsrc, hfmt, hdec, hm]
    exact frontOf_self _

/-- A successful loader step emits exactly the full event triple. -/
theorem loaderStep_ok_trace (m : Option (Value → Value → Except Err Value))
    (c : Value) (i : Nat) (l : Loader) (acc : Value) (v : Value)
    (h : (loaderStep m c i l acc).1 = .ok v) :
    (loaderStep m c i l acc).2 = loaderEvents i := by
  rcases hsrc : l.source with _ | (e | data)
  · simp only [loaderStep, hsrc] at h
    exact absurd h (by simp)
  · simp only [loaderStep, hsrc] at h
    exact absurd h (by simp)
  rcases hfmt : l.formatter with _ | f
  · simp only [loaderStep, hsrc, hfmt] at h
    exact absurd h (by simp)
  rcases hdec : f data c with e | temp
  · simp only [loaderStep, hsrc, hfmt, hdec] at h
    exact absurd h (by simp)
  rcases hm : (mergeStep m acc temp).1 with e | merged2
  · simp only [loaderStep, hsrc, hfmt, hdec, hm] at h
    exact absurd h (by simp)
  · simp only [loaderStep, hsrc, hfmt, hdec, hm]
    rfl

/-- Every event a loader step emits refers to that loader's index. -/
theorem loaderStep_evIdx (m : Option (Value → Value → Except Err Value))
    (c : Value) (i : Nat) (l : Loader) (acc : Value) :
    ∀ ev ∈ (loaderStep m c i l acc).2, evIdx ev = i := by
  have h := loaderStep_front m c i l acc
  obtain ⟨t, ht⟩ := h
  intro ev hev
  have : ev ∈ loaderEvents i := by
    rw [← ht]
    exact List.mem_append_left t hev
  simp [loaderEvents] at this
  rcases this with h1 | h1 | h1 <;> simp [h1, evIdx]

/-- The loader trace of `processLoaders` is an initial segment of the
canonical trace. -/
theorem processLoaders_front (m : Option (Value → Value → Except Err Value))
    (c : Value) : ∀ (ls : List Loader) (i : Nat) (acc : Value),
    frontOf (processLoaders m c i ls acc).2 (canonicalLoaderTrace i ls.length)
  | [], i, acc => ⟨[], rfl⟩
  | l :: rest, i, acc => by
    rcases hs : loaderStep m c i l acc with ⟨res, evs⟩
    rcases res with e | merged2
    · have hf : frontOf evs (loaderEvents i) := by
        have := loaderStep_front m c i l acc
        rwa [hs] at this
      simp only [processLoaders, hs, List.length_cons, canonicalLoaderTrace]
      exact frontOf_extend _ _ _ hf
    · have hf : evs = loaderEvents i := by
        have := loaderStep_ok_trace m c i l acc merged2 (by rw [hs])
        rwa [hs] at this
      subst hf
      simp only [processLoaders, hs, List.length_cons, canonicalLoaderTrace]
      exact frontOf_shift _ _ _ (processLoaders_front m c rest (i + 1) merged2)

/-- On success, `processLoaders` emits the complete canonical trace. -/
theorem processLoaders_ok_trace (m : Option (Value → Value → Except Err Value))
    (c : Value) : ∀ (ls : List Loader) (i : Nat) (acc : Value) (v : Value),
    (processLoaders m c i ls acc).1 = .ok v →
    (processLoaders m c i ls acc).2 = canonicalLoaderTrace i ls.length
  | [], i, acc, v, _ => rfl
  | l :: rest, i, acc, v, h => by
    rcases hs : loaderStep m c i l acc with ⟨res, evs⟩
    rcases res with e | merged2
    · simp only [processLoaders, hs] at h
      exact absurd h (by simp)
    · have hf : evs = loaderEvents i := by
        have := loaderStep_ok_trace m c i l acc merged2 (by rw [hs])
        rwa [hs] at this
      subst hf
      simp only [processLoaders, hs] at h ⊢
      simp only [List.length_cons, canonicalLoaderTrace]
      rw [processLoaders_ok_trace m c rest (i + 1) merged2 v h]

/-- Every event `processLoaders` emits refers to a loader index in the
processed range. -/
theorem processLoaders_evIdx (m : Option (Value → Value → Except Err Value))
    (c : Value) : ∀ (ls : List Loader) (i : Nat) (acc : Value),
    ∀ ev ∈ (processLoaders m c i ls acc).2, i ≤ evIdx ev ∧ evIdx ev < i + ls.length
  | [], i, acc => by intro ev hev; simp [processLoaders] at hev
  | l :: rest, i, acc => by
    intro ev hev
    rcases hs : loaderStep m c i l acc with ⟨res, evs⟩
    rcases res with e | merged2
    · simp only [processLoaders, hs] at hev
      have := loaderStep_evIdx m c i l acc ev (by rw [hs]; exact hev)
      simp [this]
    · simp only [processLoaders, hs] at hev
      rcases List.mem_append.mp hev with h1 | h1
      · have := loaderStep_evIdx m c i l acc ev (by rw [hs]; exact h1)
        simp [this]
      · have := processLoaders_evIdx m c rest (i + 1) merged2 ev h1
        simp only [List.length_cons]
        omega

/-- `processLoaders` over an appended list runs the first part first and,
only if it succeeds, continues with the second at the shifted index. -/
theorem processLoaders_append (m : Option (Value → Value → Except Err Value))
    (c : Value) : ∀ (xs ys : List Loader) (i : Nat) (acc : Value),
    processLoaders m c i (xs ++ ys) acc =
      match processLoaders m c i xs acc with
      | (.ok v, t) =>
        ((processLoaders m c (i + xs.length) ys v).1,
          t ++ (processLoaders m c (i + xs.length) ys v).2)
      | (.error e, t) => (.error e, t)
  | [], ys, i, acc => by simp [processLoaders]
  | x :: xs, ys, i, acc => by
    rcases hs : loaderStep m c i x acc with ⟨res, evs⟩
    rcases res with e | merged2
    · simp only [List.cons_append, processLoaders, hs]
    · simp only [List.cons_append, processLoaders, hs, List.append_eq]
      rw [processLoaders_append m c xs ys (i + 1) merged2]
      rcases hp : processLoaders m c (i + 1) xs merged2 with ⟨res2, t2⟩
      rcases res2 with e2 | v2
      · simp
      · simp only [List.length_cons]
        have harith : i + 1 + xs.length = i + (xs.length + 1) := by omega
        rw [harith]
        simp [List.append_assoc]

/-- On an error the reload leaves the manager state — in particular the
exposed snapshot — exactly as it was. -/
theorem reload_error_state (cm : ConfigManager) (e : Err)
    (h : cm.reloadM.res = .error e) : cm.reloadM.state = cm := by
  rcases hc : cm.constructor with _ | c
  · simp [ConfigManager.reloadM, hc]
  rcases hp : processLoaders cm.ctorMerger c 0 cm.loaders c with ⟨res, levs⟩
  rcases res with e2 | merged
  · simp [ConfigManager.reloadM, hc, hp]
  rcases hv : cm.validateM merged with ⟨r, vevs⟩
  rcases r with _ | e3
  · simp [ConfigManager.reloadM, hc, hp, hv] at h
  · simp [ConfigManager.reloadM, hc, hp, hv]

/-- On success the reload replaces the snapshot wholesale and changes
nothing else. -/
theorem reload_ok_state (cm : ConfigManager) (h : cm.reloadM.res = .ok ()) :
    ∃ v, cm.reloadM.state = { cm with current := some v } := by
  rcases hc : cm.constructor with _ | c
  · simp [ConfigManager.reloadM, hc] at h
  rcases hp : processLoaders cm.ctorMerger c 0 cm.loaders c with ⟨res, levs⟩
  rcases res with e2 | merged
  · simp [ConfigManager.reloadM, hc, hp] at h
  rcases hv : cm.validateM merged with ⟨r, vevs⟩
  rcases r with _ | e3
  · exact ⟨merged, by simp [ConfigManager.reloadM, hc, hp, hv]⟩
  · simp [ConfigManager.reloadM, hc, hp, hv] at h

/-- The loader trace of a reload is an initial segment of the canonical
in-order trace over all loaders. -/
theorem reload_front (cm : ConfigManager) :
    frontOf cm.reloadM.loaderTrace (canonicalLoaderTrace 0 cm.loaders.length) := by
  rcases hc : cm.constructor with _ | c
  · simp [ConfigManager.reloadM, hc]
    exact ⟨canonicalLoaderTrace 0 cm.loaders.length, rfl⟩
  rcases hp : processLoaders cm.ctorMerger c 0 cm.loaders c with ⟨res, levs⟩
  have hfront := processLoaders_front cm.ctorMerger c cm.loaders 0 c
  rw [hp] at hfront
  rcases res with e | merged
  · simpa [ConfigManager.reloadM, hc, hp] using hfront
  rcases hv : cm.validateM merged with ⟨r, vevs⟩
  rcases r with _ | e2 <;> simpa [ConfigManager.reloadM, hc, hp, hv] using hfront

/-- A successful reload's loader trace is the complete canonical trace:
every loader is processed, in registration order. -/
theorem reload_ok_trace (cm : ConfigManager) (h : cm.reloadM.res = .ok ()) :
    cm.reloadM.loaderTrace = canonicalLoaderTrace 0 cm.loaders.length := by
  rcases hc : cm.constructor with _ | c
  · simp [ConfigManager.reloadM, hc] at h
  rcases hp : processLoaders cm.ctorMerger c 0 cm.loaders c with ⟨res, levs⟩
  rcases res with e | merged
  · simp [ConfigManager.reloadM, hc, hp] at h
  have htr := processLoaders_ok_trace cm.ctorMerger c cm.loaders 0 c merged (by rw [hp])
  rw [hp] at htr
  rcases hv : cm.validateM merged with ⟨r, vevs⟩
  rcases r with _ | e2
  · simpa [ConfigManager.reloadM, hc, hp, hv] using htr
  · simp [ConfigManager.reloadM, hc, hp, hv] at h

/-- When every named validator passes, all of them run, in order. -/
theorem runNamed_allPass : ∀ (l : List (String × Option (Option Err))),
    (∀ p ∈ l, p.2 = some none) → runNamedValidators l = (none, namedEvents l)
  | [], _ => rfl
  | (n, f) :: rest, h => by
    have hf : f = some none := h (n, f) (by simp)
    subst hf
    have ih := runNamed_allPass rest (fun p hp => h p (by simp [hp]))
    simp [runNamedValidators, namedEvents, ih]

/-- The first failing named validator aborts the run, with the failure
wrapped with that validator's name; exactly the earlier (passing) named
validators and the failing one have run. -/
theorem runNamed_firstFail : ∀ (pre : List (String × Option (Option Err)))
    (n : String) (e : Err) (post : List (String × Option (Option Err))),
    (∀ p ∈ pre, p.2 = some none) →
    runNamedValidators (pre ++ (n, some (some e)) :: post) =
      (some (.wrap ("named validator " ++ quoteStr n) e), namedEvents pre ++ [.namedEv n])
  | [], n, e, post, _ => by simp [runNamedValidators, namedEvents]
  | (n0, f0) :: pre, n, e, post, h => by
    have hf : f0 = some none := h (n0, f0) (by simp)
    subst hf
    have ih := runNamed_firstFail pre n e post (fun p hp => h p (by simp [hp]))
    simp [runNamedValidators, namedEvents, ih]

/-- When every positional validator passes, all of them run, in order. -/
theorem runPos_allPass : ∀ (l : List (Option (Option Err))) (i : Nat),
    (∀ q ∈ l, q = some none) → runPosValidators i l = (none, posEvents i l)
  | [], _, _ => rfl
  | f :: rest, i, h => by
    have hf : f = some none := h f (by simp)
    subst hf
    have ih := runPos_allPass rest (i + 1) (fun q hq => h q (by simp [hq]))
    simp [runPosValidators, posEvents, ih]

/-- The first failing positional validator aborts the run, the failure
wrapped with that validator's index. -/
theorem runPos_firstFail : ∀ (pre : List (Option (Option Err))) (i : Nat)
    (e : Err) (post : List (Option (Option Err))),
    (∀ q ∈ pre, q = some none) →
    runPosValidators i (pre ++ some (some e) :: post) =
      (some (.wrap ("validator " ++ toString (i + pre.length)) e),
        posEvents i pre ++ [.posEv (i + pre.length)])
  | [], i, e, post, _ => by simp [runPosValidators, posEvents]
  | f :: pre, i, e, post, h => by
    have hf : f = some none := h f (by simp)
    subst hf
    have ih := runPos_firstFail pre (i + 1) e post (fun q hq => h q (by simp [hq]))
    have harith : i + 1 + pre.length = i + (pre.length + 1) := by omega
    simp [runPosValidators, posEvents, ih, harith]

/-- The watcher-stop events are exactly one per loader that has a watcher,
in loader order. -/
theorem watcherStops_events : ∀ (ls : List Loader) (i : Nat),
    (watcherStops i ls).1 = (watcherIdx i ls).map SEvent.watcherStopEv
  | [], _ => rfl
  | l :: rest, i => by
    have ih := watcherStops_events rest (i + 1)
    rcases hw : l.watcher with _ | w
    · simp [watcherStops, watcherIdx, hw, ih]
    rcases hr : w.stopRes with _ | e <;>
      simp [watcherStops, watcherIdx, hw, hr, ih]

/-- The collected stop errors are all the non-nil watcher-stop results, in
loader order. -/
theorem watcherStops_errs : ∀ (ls : List Loader) (i : Nat),
    (watcherStops i ls).2 = stopErrsOf ls
  | [], _ => rfl
  | l :: rest, i => by
    have ih := watcherStops_errs rest (i + 1)
    rcases hw : l.watcher with _ | w
    · simp [watcherStops, stopErrsOf, hw, ih]
    rcases hr : w.stopRes with _ | e <;>
      simp [watcherStops, stopErrsOf, hw, hr, ih]

/-- C1: reload is all-or-nothing.  (1) On any error the state — and so the
exposed snapshot — is exactly as it was; (2) only on full success is the
snapshot replaced, wholesale, with the fully merged value; (3) when the
first `N` loaders succeed and loader `N` fails at read, decode, or
merge, reload returns that error, leaves the state untouched, and emits
no event of any loader after the `N`-th — no later loader is processed;
(4) a validation failure likewise aborts with an error and leaves the
state untouched. -/
theorem C1_reload_all_or_nothing :
    (∀ (cm : ConfigManager) (e : Err), cm.reloadM.res = .error e → cm.reloadM.state = cm) ∧
    (∀ (cm : ConfigManager), cm.reloadM.res = .ok () →
      ∃ v, cm.reloadM.state = { cm with current := some v }) ∧
    (∀ (cm : ConfigManager) (c acc : Value) (pre post : List Loader) (lN : Loader)
        (e : Err) (t1 : List LEvent),
      cm.constructor = some c →
      cm.loaders = pre ++ lN :: post →
      processLoaders cm.ctorMerger c 0 pre c = (.ok acc, t1) →
      (loaderStep cm.ctorMerger c pre.length lN acc).1 = .error e →
      cm.reloadM.res = .error e ∧ cm.reloadM.state = cm ∧
      ∀ ev ∈ cm.reloadM.loaderTrace, evIdx ev ≤ pre.length) ∧
    (∀ (cm : ConfigManager) (c merged : Value) (levs : List LEvent) (e : Err),
      cm.constructor = some c →
      processLoaders cm.ctorMerger c 0 cm.loaders c = (.ok merged, levs) →
      (cm.validateM merged).1 = some e →
      cm.reloadM.res = .error (.wrap "validate config" e) ∧ cm.reloadM.state = cm) := by
  refine ⟨reload_error_state, reload_ok_state, ?_, ?_⟩
  · intro cm c acc pre post lN e t1 hc hsplit hpre hstep
    rcases hs2 : loaderStep cm.ctorMerger c pre.length lN acc with ⟨res2, t2⟩
    rw [hs2] at hstep
    simp at hstep
    subst hstep
    have hfull : processLoaders cm.ctorMerger c 0 cm.loaders c = (.error e, t1 ++ t2) := by
      rw [hsplit, processLoaders_append cm.ctorMerger c pre (lN :: post) 0 c, hpre]
      simp only [Nat.zero_add]
      simp only [processLoaders, hs2]
    have hres : cm.reloadM.res = .error e := by
      simp [ConfigManager.reloadM, hc, hfull]
    refine ⟨hres, reload_error_state cm e hres, ?_⟩
    have htrace : cm.reloadM.loaderTrace = t1 ++ t2 := by
      simp [ConfigManager.reloadM, hc, hfull]
    rw [htrace]
    intro ev hev
    rcases List.mem_append.mp hev with h1 | h1
    · have := processLoaders_evIdx cm.ctorMerger c pre 0 c ev (by rw [hpre]; exact h1)
      omega
    · have := loaderStep_evIdx cm.ctorMerger c pre.length lN acc ev (by rw [hs2]; exact h1)
      omega
  · intro cm c merged levs e hc hpre hval
    rcases hv : cm.validateM merged with ⟨r, vevs⟩
    rw [hv] at hval
    simp at hval
    subst hval
    have hres : cm.reloadM.res = .error (.wrap "validate config" e) := by
      simp [ConfigManager.reloadM, hc, hpre, hv]
    exact ⟨hres, reload_error_state cm _ hres⟩

/-- C1 witness: a running manager with three loaders whose second fails at
read: the reload reports the read failure and leaves the state (and its
snapshot) untouched. -/
theorem C1_reload_all_or_nothing_witness :
    cmC1.reloadM.res = .error (.wrap "read data from modTimer" (.userErr "boom")) ∧
    cmC1.reloadM.state = cmC1 := by
  have h := C1_reload_all_or_nothing.2.2.1 cmC1 (onePtr 0) (onePtr 7)
    [okLoader (onePtr 7)] [okLoader (onePtr 9)] badReadLoader
    (.wrap "read data from modTimer" (.userErr "boom"))
    [.readEv 0, .unmarshalEv 0, .mergeEv 0] rfl rfl rfl rfl
  exact ⟨h.1, h.2.1⟩

/-- C3, counterexample to the claim as stated: the named validators are
iterated via a Go `map` `range`, whose order is unspecified, so there is
no deterministic fixed order.  Two association lists that are
permutations of each other represent the same Go map; on them, with two
failing named validators, validation reports differently tagged errors,
so the outcome is not a function of the manager's state. -/
theorem C3_counterexample :
    ((cmNamed [("a", some (some (.userErr "ea"))), ("b", some (some (.userErr "eb")))]).validateM
        (onePtr 0)).1 = some (.wrap "named validator \"a\"" (.userErr "ea")) ∧
    ((cmNamed [("b", some (some (.userErr "eb"))), ("a", some (some (.userErr "ea")))]).validateM
        (onePtr 0)).1 = some (.wrap "named validator \"b\"" (.userErr "eb")) ∧
    List.Perm [("a", some (some (Err.userErr "ea"))), ("b", some (some (Err.userErr "eb")))]
      [("b", some (some (Err.userErr "eb"))), ("a", some (some (Err.userErr "ea")))] ∧
    some (Err.wrap "named validator \"a\"" (.userErr "ea")) ≠
      some (Err.wrap "named validator \"b\"" (.userErr "eb")) := by
  refine ⟨rfl, rfl, ?_, by simp⟩
  exact List.Perm.swap _ _ _

/-- C3 (amended): during validation, (1) the configuration type's own
`Validate` (when implemented) is invoked first and its failure aborts
with its error untagged, before any registered validator runs; (2) when
the type-level validation passes and every registered validator passes,
every named validator runs (in map-iteration order, modelled by the
list order) and then every positional validator runs, in index order;
(3) the first failing named validator aborts with its error tagged with
that validator's name, exactly the earlier named validators having run
after the type-level validation; (4) when all named validators pass,
the first failing positional validator aborts with its error tagged
with its index.  The order is thus type-level, then named (in the map's
unspecified iteration order — not deterministic, see the
counterexample), then positional. -/
theorem C3_validator_execution :
    (∀ (cm : ConfigManager) (v : Value → Option Err) (cfg : Value) (e : Err),
      cm.ctorValidator = some v → v cfg = some e →
      cm.validateM cfg = (some e, [.typeValidateEv])) ∧
    (∀ (cm : ConfigManager) (cfg : Value),
      tyPasses cm cfg →
      (∀ p ∈ cm.namedValidators, p.2 = some none) →
      (∀ q ∈ cm.validators, q = some none) →
      cm.validateM cfg =
        (none, tyValEvents cm ++ namedEvents cm.namedValidators ++ posEvents 0 cm.validators)) ∧
    (∀ (cm : ConfigManager) (cfg : Value) (pre : List (String × Option (Option Err)))
        (n : String) (e : Err) (post : List (String × Option (Option Err))),
      tyPasses cm cfg →
      cm.namedValidators = pre ++ (n, some (some e)) :: post →
      (∀ p ∈ pre, p.2 = some none) →
      cm.validateM cfg = (some (.wrap ("named validator " ++ quoteStr n) e),
        tyValEvents cm ++ namedEvents pre ++ [.namedEv n])) ∧
    (∀ (cm : ConfigManager) (cfg : Value) (pre : List (Option (Option Err)))
        (e : Err) (post : List (Option (Option Err))),
      tyPasses cm cfg →
      (∀ p ∈ cm.namedValidators, p.2 = some none) →
      cm.validators = pre ++ some (some e) :: post →
      (∀ q ∈ pre, q = some none) →
      cm.validateM cfg = (some (.wrap ("validator " ++ toString pre.length) e),
        tyValEvents cm ++ namedEvents cm.namedValidators ++ posEvents 0 pre ++
          [.posEv pre.length])) := by
  refine ⟨?_, ?_, ?_, ?_⟩
  · intro cm v cfg e hv hve
    simp [ConfigManager.validateM, hv, hve]
  · intro cm cfg hty hn hp
    have hnamed := runNamed_allPass cm.namedValidators hn
    have hpos := runPos_allPass cm.validators 0 hp
    rcases hty with hty | ⟨v, hv, hve⟩
    · simp [ConfigManager.validateM, hty, hnamed, hpos, tyValEvents]
    · simp [ConfigManager.validateM, hv, hve, hnamed, hpos, tyValEvents]
  · intro cm cfg pre n e post hty hsplit hpre
    have hnamed := runNamed_firstFail pre n e post hpre
    rcases hty with hty | ⟨v, hv, hve⟩
    · simp [ConfigManager.validateM, hty, hsplit, hnamed, tyValEvents]
    · simp [ConfigManager.validateM, hv, hve, hsplit, hnamed, tyValEvents]
  · intro cm cfg pre e post hty hn hsplit hppre
    have hnamed := runNamed_allPass cm.namedValidators hn
    have hpos := runPos_firstFail pre 0 e post hppre
    simp only [Nat.zero_add] at hpos
    rcases hty with hty | ⟨v, hv, hve⟩
    · simp [ConfigManager.validateM, hty, hsplit, hnamed, hpos, tyValEvents]
    · simp [ConfigManager.validateM, hv, hve, hsplit, hnamed, hpos, tyValEvents]

/-- C3 witness: a failing named validator registered alongside a succeeding
type-level `Validate` and a passing positional validator still aborts
the validation; the emitted error names the failing named validator, and
the type-level validation and the earlier named validator ran first. -/
theorem C3_validator_execution_witness :
    cmC3.validateM (onePtr 0) = (some (.wrap "named validator \"b\"" (.userErr "eb")),
      [.typeValidateEv, .namedEv "a", .namedEv "b"]) := by
  have h := C3_validator_execution.2.2.1 cmC3 (onePtr 0) [("a", some none)] "b"
    (.userErr "eb") [] (Or.inr ⟨fun _ => none, rfl, rfl⟩) rfl
    (by intro p hp; simp at hp; subst hp; rfl)
  exact h

/-- C4, counterexample to the claim as stated: `Stop` does not mark
intent-to-stop first — the running flag is cleared by a `defer`, i.e.
after every watcher stop (the flag-clear event is last in the trace, not
first), and nothing gates reload on the flag: after `Stop` returns, a
reload still processes the loaders and replaces the snapshot. -/
theorem C4_counterexample :
    cmC4.StopM.trace = [.watcherStopEv 0, .clearRunningEv] ∧
    cmC4.StopM.trace.head? ≠ some SEvent.clearRunningEv ∧
    cmC4.StopM.state.reloadM.res = .ok () ∧
    cmC4.StopM.state.reloadM.loaderTrace = [.readEv 0, .unmarshalEv 0, .mergeEv 0] ∧
    cmC4.StopM.state.reloadM.state.current = some (onePtr 0) := by
  refine ⟨rfl, ?_, rfl, rfl, rfl⟩
  intro h
  rw [show cmC4.StopM.trace = [SEvent.watcherStopEv 0, SEvent.clearRunningEv] from rfl] at h
  simp at h

/-- C4 (amended): `Stop` on a Running manager calls `Stop` on every
registered loader's watcher that has one (skipping loaders without one,
in loader order), collects all resulting errors — joined, not
short-circuited — and always marks the state Stopped, but only on
return, after the watcher stops (the flag-clear event is last); the flag
change is the only state change. -/
theorem C4_stop_behaviour :
    ∀ (cm : ConfigManager), cm.isRunning = true →
      cm.StopM.state = { cm with isRunning := false } ∧
      cm.StopM.trace =
        ((watcherIdx 0 cm.loaders).map SEvent.watcherStopEv) ++ [.clearRunningEv] ∧
      (cm.StopM.res = none ↔ stopErrsOf cm.loaders = []) ∧
      (stopErrsOf cm.loaders ≠ [] →
        cm.StopM.res = some (.wrap "stop running watchers" (.joined (stopErrsOf cm.loaders)))) := by
  intro cm h
  have hev := watcherStops_events cm.loaders 0
  have herr := watcherStops_errs cm.loaders 0
  refine ⟨?_, ?_, ?_, ?_⟩
  · simp [ConfigManager.StopM, h]
  · simp [ConfigManager.StopM, h, hev]
  · constructor
    · intro hres
      by_contra hne
      simp [ConfigManager.StopM, h, herr, List.isEmpty_iff, hne] at hres
    · intro hnil
      simp [ConfigManager.StopM, h, herr, List.isEmpty_iff, hnil]
  · intro hne
    simp [ConfigManager.StopM, h, herr, List.isEmpty_iff, hne]

/-- C4 witness: the amended stop behaviour on a running manager with one
watched loader whose stop fails — the error is collected and joined, the
state is still marked Stopped, and the flag-clear comes after the
watcher stop. -/
theorem C4_stop_behaviour_witness :
    (cmNamedStopErr.StopM.state = { cmNamedStopErr with isRunning := false }) ∧
    cmNamedStopErr.StopM.trace = [.watcherStopEv 0, .clearRunningEv] ∧
    cmNamedStopErr.StopM.res =
      some (.wrap "stop running watchers" (.joined [.userErr "stop failed"])) := by
  have h := C4_stop_behaviour cmNamedStopErr rfl
  refine ⟨h.1, h.2.1, h.2.2.2 (by simp [cmNamedStopErr, stopErrsOf, watchLoader])⟩

/-- C5: pre-flight gating of `Start`.  (1) With an otherwise valid stopped
manager and zero loaders, `Start` returns the `NoLoadersDefined` error
(wrapped with the pre-flight message) and emits no events at all — in
particular no source read; (2) whenever the constructor is invalid,
`Start` fails with the corresponding constructor error before touching
any loader — no read, decode, or merge event; (3) the constructor
failure variants: nil constructor, non-pointer-to-struct return (a nil
pointer included), and non-zero struct return. -/
theorem C5_preflight_gating :
    (∀ (cm : ConfigManager), cm.isRunning = false →
      cm.validateConstructorM = none →
      firstNilNamed cm.namedValidators = none →
      firstNilPos 0 cm.validators = none →
      cm.loaders = [] →
      cm.StartM = ⟨cm, some (.wrap "validate config manager state" .noLoadersDefined),
        [], [], []⟩) ∧
    (∀ (cm : ConfigManager) (e : Err), cm.isRunning = false →
      cm.validateConstructorM = some e →
      cm.StartM = ⟨cm, some (.wrap "validate config manager state"
        (.wrap "validate constructor" e)), [], [], []⟩) ∧
    (∀ (cm : ConfigManager), cm.constructor = none →
      cm.validateConstructorM = some .constructorIsNil) ∧
    (∀ (cm : ConfigManager) (v : Value), cm.constructor = some v →
      (∀ fs, v ≠ .vPtrSome (.vStruct fs)) →
      cm.validateConstructorM = some .constructorMustBePointer) ∧
    (∀ (cm : ConfigManager) (fs : ValueList),
      cm.constructor = some (.vPtrSome (.vStruct fs)) → fieldsZero fs = false →
      cm.validateConstructorM = some .constructorMustReturnZeroStruct) := by
  refine ⟨?_, ?_, ?_, ?_, ?_⟩
  · intro cm hr hc hn hp hl
    have hpre : cm.validatePreRunStateM = some .noLoadersDefined := by
      simp [ConfigManager.validatePreRunStateM, hc, hn, hp, hl]
    simp [ConfigManager.StartM, hr, hpre]
  · intro cm e hr hc
    have hpre : cm.validatePreRunStateM = some (.wrap "validate constructor" e) := by
      simp [ConfigManager.validatePreRunStateM, hc]
    simp [ConfigManager.StartM, hr, hpre]
  · intro cm hc
    simp [ConfigManager.validateConstructorM, hc]
  · intro cm v hc hv
    rcases v with _ | _ | _ | w | _ | _ | ⟨_, _⟩ | _ | ⟨_, _⟩ <;>
      first
        | (rcases w with _ | _ | _ | _ | fs | _ | ⟨_, _⟩ | _ | ⟨_, _⟩ <;>
            first
              | exact absurd rfl (hv _)
              | simp [ConfigManager.validateConstructorM, hc])
        | simp [ConfigManager.validateConstructorM, hc]
  · intro cm fs hc hz
    simp [ConfigManager.validateConstructorM, hc, hz]

/-- C5 witness: `Start` on a stopped manager with zero loaders returns the
wrapped `NoLoadersDefined` error and reads nothing; `Start` on a manager
whose constructor returns a non-zero struct fails with the non-zero
constructor error and emits no loader event, although a loader is
registered. -/
theorem C5_preflight_gating_witness :
    cmC5a.StartM = ⟨cmC5a, some (.wrap "validate config manager state" .noLoadersDefined),
      [], [], []⟩ ∧
    cmC5b.StartM = ⟨cmC5b, some (.wrap "validate config manager state"
      (.wrap "validate constructor" .constructorMustReturnZeroStruct)), [], [], []⟩ := by
  refine ⟨?_, ?_⟩
  · exact C5_preflight_gating.1 cmC5a rfl rfl rfl rfl rfl
  · exact C5_preflight_gating.2.1 cmC5b .constructorMustReturnZeroStruct rfl rfl

/-- C9: `Stop` is idempotent.  (1) On an already-Stopped manager, `Stop`
succeeds, changes nothing, and calls no watcher's stop (its trace is
empty); (2) on a Running manager whose watchers all stop successfully,
`Stop` succeeds, and the second `Stop` immediately after is a no-op:
success, no events, no additional watcher-stop calls. -/
theorem C9_idempotent_stop :
    (∀ (cm : ConfigManager), cm.isRunning = false → cm.StopM = ⟨cm, none, []⟩) ∧
    (∀ (cm : ConfigManager), cm.isRunning = true → stopErrsOf cm.loaders = [] →
      cm.StopM.res = none ∧ cm.StopM.state.StopM = ⟨cm.StopM.state, none, []⟩) := by
  have hstopped : ∀ (cm : ConfigManager), cm.isRunning = false → cm.StopM = ⟨cm, none, []⟩ := by
    intro cm h
    simp [ConfigManager.StopM, h]
  refine ⟨hstopped, ?_⟩
  intro cm h hnil
  have herr := watcherStops_errs cm.loaders 0
  constructor
  · simp [ConfigManager.StopM, h, herr, List.isEmpty_iff, hnil]
  · have hstate : cm.StopM.state.isRunning = false := by
      simp [ConfigManager.StopM, h]
    exact hstopped _ hstate

/-- C9 witness: stopping the running one-watched-loader manager succeeds,
and a second `Stop` is a no-op with no watcher-stop events. -/
theorem C9_idempotent_stop_witness :
    cmC4.StopM.res = none ∧
    cmC4.StopM.state.StopM = ⟨cmC4.StopM.state, none, []⟩ := by
  exact C9_idempotent_stop.2 cmC4 rfl rfl

/-- C10: `AddLoader` appends the loader at the end of the ordered loader
sequence and changes nothing else; it validates nothing and never checks
the running flag (the equation holds for every manager state and every
loader value, valid or not).  The appended loader is last, and a
subsequent reload processes it: the reload's loader trace is an initial
segment of the canonical trace over all `n + 1` loaders and, when the
reload succeeds, equals it — so the new loader is processed in the
last, highest-precedence position. -/
theorem C10_add_loader :
    ∀ (cm : ConfigManager) (l : Loader),
      cm.AddLoaderM l = { cm with loaders := cm.loaders ++ [l] } ∧
      (cm.AddLoaderM l).loaders.getLast? = some l ∧
      frontOf (cm.AddLoaderM l).reloadM.loaderTrace
        (canonicalLoaderTrace 0 (cm.loaders.length + 1)) ∧
      ((cm.AddLoaderM l).reloadM.res = .ok () →
        (cm.AddLoaderM l).reloadM.loaderTrace =
          canonicalLoaderTrace 0 (cm.loaders.length + 1)) := by
  intro cm l
  have hlen : (cm.AddLoaderM l).loaders.length = cm.loaders.length + 1 := by
    simp [ConfigManager.AddLoaderM]
  refine ⟨rfl, ?_, ?_, ?_⟩
  · simp [ConfigManager.AddLoaderM]
  · have h := reload_front (cm.AddLoaderM l)
    rwa [hlen] at h
  · intro hok
    have h := reload_ok_trace (cm.AddLoaderM l) hok
    rwa [hlen] at h

/-- C10 witness: adding a loader to a one-loader manager puts it last, and
the following successful reload processes both loaders in order, the
added one last. -/
theorem C10_add_loader_witness :
    (cmC10.AddLoaderM (okLoader (onePtr 9))).loaders.getLast? = some (okLoader (onePtr 9)) ∧
    (cmC10.AddLoaderM (okLoader (onePtr 9))).reloadM.loaderTrace =
      [.readEv 0, .unmarshalEv 0, .mergeEv 0, .readEv 1, .unmarshalEv 1, .mergeEv 1] := by
  have h := C10_add_loader cmC10 (okLoader (onePtr 9))
  exact ⟨h.2.1, h.2.2.2 rfl⟩

end Confgo
